import Mathlib

/-!
Shallow embedding of `src/createAFLabApp.js` (create-af-app scaffolding CLI).

Pure functions of the script become Lean functions; the effectful steps of
`init` become an explicit action trace interpreted over an abstract
filesystem state.  External collaborators (the npm-name validator, the
filesystem, the failure behaviour of shell commands) are parameters.
-/

namespace CreateAFLabApp

/-- The fixed template repository URL (src/createAFLabApp.js:38-39). -/
def GITHUB_REPO : String :=
  "https://github.com/tzeweiwee/airfoil-labs-nextjs-template.git"

/-- The static dependency table `packageDependencies`
(src/createAFLabApp.js:44-50).  A JS object lookup yields `undefined` for a
missing key, modelled as `none`; note `supabase` is present with the empty
string. -/
def packageDependencies : String → Option String
  | "chakraui" =>
      some "@chakra-ui/react @emotion/react@^11 @emotion/styled@^11 framer-motion@^6"
  | "tailwindcss" => some "tailwindcss postcss autoprefixer"
  | "prisma" => some "prisma"
  | "supabase" => some ""
  | _ => none

/-- `getCssDependencies` (src/createAFLabApp.js:119-121):
`packageDependencies[cssStyleFramework] || ''`.  Both a missing key
(`undefined`) and the falsy empty-string entry collapse to `""`. -/
def getCssDependencies (cssStyleFramework : String) : String :=
  (packageDependencies cssStyleFramework).getD ""

/-- One step of the `reduce` in `getBackendServicesDependencies`
(src/createAFLabApp.js:128-130): `deps.concat(packageDependencies[service])`.
JS `String.prototype.concat` stringifies `undefined` to the text
`"undefined"` when the key is absent. -/
def jsConcatLookup (deps service : String) : String :=
  match packageDependencies service with
  | some s => deps ++ s
  | none => deps ++ "undefined"

/-- `getBackendServicesDependencies` (src/createAFLabApp.js:123-131). -/
def getBackendServicesDependencies (backendServices : List String) : String :=
  if backendServices.isEmpty then ""
  else backendServices.foldl jsConcatLookup ""

/-- `allDependencies` as built in `installDependencies`
(src/createAFLabApp.js:237-240):
`[cssStyleDependencies, backendDependencies].join(' ')`. -/
def allDependencies (cssStyling : String) (backendServices : List String) : String :=
  getCssDependencies cssStyling ++ " " ++ getBackendServicesDependencies backendServices

/-- `getInstallCommand` (src/createAFLabApp.js:209-220).  The `switch` falls
through from the `yarn`/`pnpm` cases into the default return; the guard
`!dependencies && dependencies !== ' '` holds exactly when the string is
empty (the only falsy string), since an empty string also differs from
`' '`. -/
def getInstallCommand (packageManager dependencies : String) : String :=
  if packageManager = "yarn" ∨ packageManager = "pnpm" then
    if dependencies = "" ∧ dependencies ≠ " " then
      packageManager ++ " add " ++ dependencies
    else
      packageManager ++ " install " ++ dependencies
  else
    packageManager ++ " install " ++ dependencies

/-- Worker for `jsSplit`: accumulates the current component (reversed) and
emits it at each separator and at the end of the input. -/
def splitChAux (sep : Char) : List Char → List Char → List String
  | [], acc => [String.mk acc.reverse]
  | c :: rest, acc =>
      if c = sep then String.mk acc.reverse :: splitChAux sep rest []
      else splitChAux sep rest (c :: acc)

/-- JS `String.prototype.split` with a single-character separator, as used
by `currentNodeVersion.split('.')` (src/createAFLabApp.js:135). -/
def jsSplit (s : String) (sep : Char) : List String :=
  splitChAux sep s.data []

/-- Decimal-digit accumulator for `jsStringToNum`. -/
def parseDecimalAux : List Char → Nat → Option Nat
  | [], acc => some acc
  | c :: cs, acc =>
      if c.isDigit then parseDecimalAux cs (acc * 10 + (c.toNat - 48))
      else none

/-- JS numeric coercion of a string as used by `major < 14`
(src/createAFLabApp.js:138): `Number('')` is `0`; a decimal digit string
becomes its value; anything else is `NaN` (modelled `none`).  Domain of
use: components of `process.versions.node`. -/
def jsStringToNum (s : String) : Option Nat :=
  match s.data with
  | [] => some 0
  | cs => parseDecimalAux cs 0

/-- JS `<` between a string and a number: the string is coerced; a `NaN`
comparison is false. -/
def jsLtNat (s : String) (n : Nat) : Bool :=
  match jsStringToNum s with
  | some m => decide (m < n)
  | none => false

/-- `validateNodeVersion` (src/createAFLabApp.js:133-150): splits
`process.versions.node` on `'.'`, takes the first component, and calls
`process.exit(1)` when it compares below 14.  `some c` models
`process.exit(c)`; `none` models falling through. -/
def validateNodeVersion (version : String) : Option Nat :=
  let major := (jsSplit version '.').headD ""
  if jsLtNat major 14 then some 1 else none

/-- `validateAppName` (src/createAFLabApp.js:152-191), with the external
`validate-npm-package-name` check (`validationResult.validForNewPackages`)
as an oracle.  `argv` is the full `process.argv` (runtime, script, then the
positional arguments).  Returns the project name and the `isCurrentDir`
flag, or the exit code. -/
def validateAppName (argv : List String) (validForNewPackages : String → Bool) :
    Except Nat (String × Bool) :=
  if argv.length < 3 then Except.error 1
  else
    let projectName := argv.getD 2 ""
    if projectName = "." then Except.ok (projectName, true)
    else if validForNewPackages projectName then Except.ok (projectName, false)
    else Except.error 1

/-- `validateProjectPath` (src/createAFLabApp.js:193-202): exits 1 when not
in current-directory mode and `fs.existsSync(projectPath)` holds. -/
def validateProjectPath (isCurrentDir : Bool) (pathOnDisk : Bool) : Option Nat :=
  if !isCurrentDir && pathOnDisk then some 1 else none

/-- `path.join(currentPath, projectName)` as used by `setProjectPath`
(src/createAFLabApp.js:114-117), for an absolute normalized base and a name
that is either the sentinel `"."` or a plain path segment: joining with
`"."` normalizes to the base itself. -/
def pathJoin (base name : String) : String :=
  if name = "." then base else base ++ "/" ++ name

/-- Observable effects of the script: shell commands run via `execSync`,
directory trees materialized by the clone, `process.chdir`, recursive
`fs.rmSync` on an absolute or (current-directory-relative) path, and the
error print of the catch handler. -/
inductive Action where
  | exec (cmd : String)
  | mkTree (p : String)
  | chdir (p : String)
  | rmRec (p : String)
  | rmRecRel (p : String)
  | printErr
deriving DecidableEq, Repr

/-- The answers collected by the `prompts` calls in `installDependencies`
and `postInstall` (src/createAFLabApp.js:52-101, 222-235, 251-253, 270). -/
structure Answers where
  packageManager : String
  cssStyling : String
  backendServices : List String
  isCreateSupabaseProject : Bool
  supabaseProjectName : String
deriving DecidableEq, Repr

/-- The side-effecting steps of `init`'s try block
(src/createAFLabApp.js:309-318). -/
inductive Step where
  | clone
  | chdir
  | install
  | post
  | clean
deriving DecidableEq, Repr

/-- Commands run by `postInstall` (src/createAFLabApp.js:251-275):
`<pm> run init:prisma` when `prisma` was selected, `<pm> run init:supabase`
when `supabase` was selected, then the three supabase-CLI commands when
project creation was confirmed. -/
def postInstallActions (a : Answers) : List Action :=
  (if a.backendServices.contains "prisma"
     then [Action.exec (a.packageManager ++ " run init:prisma")] else [])
  ++ (if a.backendServices.contains "supabase"
     then [Action.exec (a.packageManager ++ " run init:supabase")] else [])
  ++ (if a.isCreateSupabaseProject
     then [Action.exec "npx supabase login",
           Action.exec "npx supabase projects list",
           Action.exec ("npx supabase projects create " ++ a.supabaseProjectName ++ " -i")]
     else [])

/-- The effects of each completed step of the try block:
`cloneRepo` (src/createAFLabApp.js:204-207) runs the shallow clone and
materializes the tree at the resolved path; `process.chdir(projectPath)`
(line 313); the install command (lines 242-245); `postInstall`; and
`cleanUp` (lines 277-281), which removes `./.git` relative to the current
working directory. -/
def stepActions (resolvedPath : String) (a : Answers) : Step → List Action
  | Step.clone =>
      [Action.exec ("git clone --depth 1 " ++ GITHUB_REPO ++ " " ++ resolvedPath),
       Action.mkTree resolvedPath]
  | Step.chdir => [Action.chdir resolvedPath]
  | Step.install =>
      [Action.exec (getInstallCommand a.packageManager
        (allDependencies a.cssStyling a.backendServices))]
  | Step.post => postInstallActions a
  | Step.clean => [Action.rmRecRel ".git"]

/-- The order of the try block's steps (src/createAFLabApp.js:310-317). -/
def stepOrder : List Step :=
  [Step.clone, Step.chdir, Step.install, Step.post, Step.clean]

/-- Effects left behind by the step that throws: a failed `git clone` may
leave a partially transferred tree at the target (when `leftoverTree`), or
nothing. Partial effects of the other throwing steps do not create or
remove the tracked trees. -/
def failEffects (resolvedPath : String) (leftoverTree : Bool) : Step → List Action
  | Step.clone =>
      Action.exec ("git clone --depth 1 " ++ GITHUB_REPO ++ " " ++ resolvedPath)
        :: (if leftoverTree then [Action.mkTree resolvedPath] else [])
  | _ => []

/-- The trace of `init`'s try/catch (src/createAFLabApp.js:309-322), given
which step (if any) is the first to throw.  On a throw, the catch handler
prints the error and calls `deleteDirectory` (lines 283-286), i.e.
`fs.rmSync(projectPath, { recursive: true })` at the absolute resolved
path. -/
def initTrace (resolvedPath : String) (a : Answers)
    (failAt : Option Step) (leftoverTree : Bool) : List Action :=
  match failAt with
  | none => (stepOrder.map (stepActions resolvedPath a)).flatten
  | some s =>
      ((stepOrder.takeWhile (fun t => t ≠ s)).map (stepActions resolvedPath a)).flatten
        ++ failEffects resolvedPath leftoverTree s
        ++ [Action.printErr, Action.rmRec resolvedPath]

/-- Abstract filesystem state: the current working directory and the roots
of the directory trees this run observes (tracked as exact paths). -/
structure FsState where
  cwd : String
  dirs : List String
deriving DecidableEq, Repr

/-- Whether path `p` lies at or below the tree rooted at `root`. -/
def underTree (root p : String) : Bool :=
  root = p || decide (p.data.take (root.data.length + 1) = (root ++ "/").data)

/-- Interpretation of one action on the filesystem state.  A recursive
removal deletes every tracked root at or below the removed path; a relative
removal resolves against the current working directory first (as `fs.rmSync`
does). -/
def applyAction (st : FsState) : Action → FsState
  | Action.exec _ => st
  | Action.printErr => st
  | Action.mkTree p => { st with dirs := p :: st.dirs }
  | Action.chdir p => { st with cwd := p }
  | Action.rmRec p => { st with dirs := st.dirs.filter (fun d => !underTree p d) }
  | Action.rmRecRel p =>
      { st with dirs := st.dirs.filter (fun d => !underTree (st.cwd ++ "/" ++ p) d) }

/-- Run a trace of actions on a filesystem state. -/
def applyTrace (st : FsState) (tr : List Action) : FsState :=
  tr.foldl applyAction st

/-- `fs.existsSync` over the tracked roots. -/
def fsPresent (dirs : List String) (p : String) : Bool :=
  decide (p ∈ dirs)

/-- Inputs fixed before `init`'s try block: the runtime version string, the
full `process.argv`, the external npm-name validity oracle, the current
working directory, and the directory roots on disk at process start. -/
structure ProgInput where
  nodeVersion : String
  argv : List String
  validName : String → Bool
  cwd : String
  fs0 : List String

/-- How the process ended: `exited c` models an explicit `process.exit(c)`
during validation; `finished caught` models `init`'s promise resolving,
with `caught` recording whether the catch handler ran. -/
inductive RunOutcome where
  | exited (code : Nat)
  | finished (caught : Bool)
deriving DecidableEq, Repr

/-- The whole program (src/createAFLabApp.js:303-325): the validations in
order, then the try/catch trace.  Evaluates to the outcome and the trace of
effects. -/
def runProgram (inp : ProgInput) (a : Answers)
    (failAt : Option Step) (leftoverTree : Bool) : RunOutcome × List Action :=
  match validateNodeVersion inp.nodeVersion with
  | some c => (RunOutcome.exited c, [])
  | none =>
    match validateAppName inp.argv inp.validName with
    | Except.error c => (RunOutcome.exited c, [])
    | Except.ok (projectName, isCurrentDir) =>
      let resolvedPath := pathJoin inp.cwd projectName
      match validateProjectPath isCurrentDir (fsPresent inp.fs0 resolvedPath) with
      | some c => (RunOutcome.exited c, [])
      | none =>
        (RunOutcome.finished failAt.isSome, initTrace resolvedPath a failAt leftoverTree)

/-- The exit code of the Node process for a given outcome: an explicit
`process.exit(c)` exits with `c`; when `init`'s promise resolves — in
particular after the catch handler has printed and deleted, since it
neither rethrows nor sets an exit code (src/createAFLabApp.js:319-322) —
the process exits 0.  (This covers runs where the rollback deletion itself
succeeds.) -/
def processExitCode : RunOutcome → Nat
  | RunOutcome.exited c => c
  | RunOutcome.finished _ => 0

/-- The table entry of a choice, with a missing entry read as the empty
string.  This is the per-choice contribution the specification describes. -/
def entryOrEmpty (choice : String) : String :=
  (packageDependencies choice).getD ""

/-- Modelled from the spec: the dependency specifier described in section
4.1 step 7 — the CSS entry and the concatenated backend entries, each
mapped through the static table with unknown or `none` choices contributing
the empty string, joined as in `installDependencies`. -/
def specDependencyString (cssStyling : String) (backendServices : List String) : String :=
  entryOrEmpty cssStyling ++ " " ++ (backendServices.map entryOrEmpty).foldl (· ++ ·) ""

/-- A concrete answer set used by witnesses: pnpm, no CSS framework, prisma
selected, no supabase project creation. -/
def sampleAnswers : Answers := ⟨"pnpm", "none", ["prisma"], false, ""⟩

/-- A concrete program input used by witnesses: Node 18, argument `my-app`,
permissive name oracle, only the home directory on disk. -/
def sampleInput : ProgInput :=
  ⟨"18.17.0", ["node", "create-af-app", "my-app"], fun _ => true, "/home/u", ["/home/u"]⟩

/-- A concrete program input in current-directory mode (argument `.`). -/
def sampleDotInput : ProgInput :=
  ⟨"18.17.0", ["node", "create-af-app", "."], fun _ => true, "/home/u", ["/home/u"]⟩

/- Helper lemmas (shared; not claim theorems). -/

theorem applyTrace_append (st : FsState) (tr₁ tr₂ : List Action) :
    applyTrace st (tr₁ ++ tr₂) = applyTrace (applyTrace st tr₁) tr₂ := by
  simp [applyTrace]

theorem fsPresent_after_final_rmRec (st : FsState) (pre : List Action) (p : String) :
    fsPresent (applyTrace st (pre ++ [Action.printErr, Action.rmRec p])).dirs p = false := by
  rw [applyTrace_append]
  simp [applyTrace, applyAction, fsPresent, underTree, List.mem_filter]

theorem mkTree_mem_prefix (resolvedPath : String) (a : Answers) (leftoverTree : Bool)
    (s : Step) (hs : s ≠ Step.clone) :
    Action.mkTree resolvedPath ∈
      ((stepOrder.takeWhile (fun t => t ≠ s)).map (stepActions resolvedPath a)).flatten
        ++ failEffects resolvedPath leftoverTree s := by
  cases s with
  | clone => exact absurd rfl hs
  | chdir => simp [stepOrder, stepActions, List.takeWhile]
  | install => simp [stepOrder, stepActions, List.takeWhile]
  | post => simp [stepOrder, stepActions, List.takeWhile]
  | clean => simp [stepOrder, stepActions, List.takeWhile]

theorem initTrace_fail_decomp (resolvedPath : String) (a : Answers)
    (leftoverTree : Bool) (s : Step) :
    initTrace resolvedPath a (some s) leftoverTree
      = (((stepOrder.takeWhile (fun t => t ≠ s)).map (stepActions resolvedPath a)).flatten
          ++ failEffects resolvedPath leftoverTree s)
        ++ [Action.printErr, Action.rmRec resolvedPath] := rfl

theorem append_ne_of_length_lt (s u t : String) (h : t.length < s.length) :
    s ++ u ≠ t := by
  intro he
  have h2 := congrArg String.length he
  rw [String.length_append] at h2
  omega

theorem append3_ne_of_length (c nm d t : String) (h : t.length < c.length + d.length) :
    c ++ nm ++ d ≠ t := by
  intro he
  have h2 := congrArg String.length he
  rw [String.length_append, String.length_append] at h2
  omega

theorem validateAppName_dot (argv : List String) (oracle : String → Bool)
    (hlen : 3 ≤ argv.length) (hdot : argv.getD 2 "" = ".") :
    validateAppName argv oracle = Except.ok (".", true) := by
  have hnl : ¬ argv.length < 3 := by omega
  have hx : validateAppName argv oracle
      = (if argv.getD 2 "" = "." then Except.ok (argv.getD 2 "", true)
         else if oracle (argv.getD 2 "") then Except.ok (argv.getD 2 "", false)
         else Except.error 1) := by
    unfold validateAppName
    rw [if_neg hnl]
  rw [hx, if_pos hdot, hdot]

theorem string_ne_of_take_ne (s u t : String)
    (h : t.data.take s.data.length ≠ s.data) : s ++ u ≠ t := by
  intro he
  apply h
  have hd : s.data ++ u.data = t.data := by
    have h2 := congrArg String.data he
    simpa [String.data_append] using h2
  rw [← hd]
  exact List.take_left s.data u.data

theorem allDependencies_ne_empty (cssStyling : String) (backendServices : List String) :
    allDependencies cssStyling backendServices ≠ "" := by
  intro h
  have h2 := congrArg String.length h
  simp [allDependencies, String.length_append] at h2
  exact absurd h2.1.2 (by decide)

theorem getInstallCommand_install (pm deps : String) (h : deps ≠ "") :
    getInstallCommand pm deps = pm ++ " install " ++ deps := by
  unfold getInstallCommand
  split
  · rw [if_neg]
    intro hc
    exact h hc.1
  · rfl

theorem foldl_jsConcatLookup_eq (l : List String)
    (h : ∀ s ∈ l, (packageDependencies s).isSome) (acc : String) :
    l.foldl jsConcatLookup acc = (l.map entryOrEmpty).foldl (· ++ ·) acc := by
  induction l generalizing acc with
  | nil => rfl
  | cons x xs ih =>
    have hx : (packageDependencies x).isSome := h x (by simp)
    obtain ⟨v, hv⟩ := Option.isSome_iff_exists.mp hx
    have hstep : jsConcatLookup acc x = acc ++ entryOrEmpty x := by
      simp [jsConcatLookup, entryOrEmpty, hv]
    simp only [List.foldl_cons, List.map_cons, hstep]
    exact ih (fun s hs => h s (by simp [hs])) (acc ++ entryOrEmpty x)

theorem getBackendServicesDependencies_table (backendServices : List String)
    (h : ∀ s ∈ backendServices, (packageDependencies s).isSome) :
    getBackendServicesDependencies backendServices
      = (backendServices.map entryOrEmpty).foldl (· ++ ·) "" := by
  unfold getBackendServicesDependencies
  split
  · rename_i he
    rw [List.isEmpty_iff.mp he]
    rfl
  · exact foldl_jsConcatLookup_eq backendServices h ""

theorem prisma_trace_shape (resolvedPath : String) (a : Answers) (leftoverTree : Bool)
    (hp : a.backendServices.contains "prisma" = true)
    (hclone : a.packageManager ++ " run init:prisma"
        ≠ "git clone --depth 1 " ++ GITHUB_REPO ++ " " ++ resolvedPath)
    (hinst : a.packageManager ++ " run init:prisma"
        ≠ a.packageManager ++ " install " ++ allDependencies a.cssStyling a.backendServices)
    (hsupa : a.packageManager ++ " run init:prisma"
        ≠ a.packageManager ++ " run init:supabase")
    (hlogin : a.packageManager ++ " run init:prisma" ≠ "npx supabase login")
    (hlist : a.packageManager ++ " run init:prisma" ≠ "npx supabase projects list")
    (hcreate : a.packageManager ++ " run init:prisma"
        ≠ "npx supabase projects create " ++ a.supabaseProjectName ++ " -i") :
    ∃ l₁ l₂,
      initTrace resolvedPath a none leftoverTree
        = l₁ ++ Action.exec (a.packageManager ++ " run init:prisma") :: l₂ ∧
      Action.exec (getInstallCommand a.packageManager
          (allDependencies a.cssStyling a.backendServices)) ∈ l₁ ∧
      Action.exec (a.packageManager ++ " run init:prisma") ∉ l₁ ∧
      Action.exec (a.packageManager ++ " run init:prisma") ∉ l₂ := by
  have hic := getInstallCommand_install a.packageManager
    (allDependencies a.cssStyling a.backendServices)
    (allDependencies_ne_empty a.cssStyling a.backendServices)
  refine ⟨[Action.exec ("git clone --depth 1 " ++ GITHUB_REPO ++ " " ++ resolvedPath),
           Action.mkTree resolvedPath,
           Action.chdir resolvedPath,
           Action.exec (getInstallCommand a.packageManager
             (allDependencies a.cssStyling a.backendServices))],
          ((if a.backendServices.contains "supabase"
              then [Action.exec (a.packageManager ++ " run init:supabase")] else [])
            ++ (if a.isCreateSupabaseProject
              then [Action.exec "npx supabase login",
                    Action.exec "npx supabase projects list",
                    Action.exec ("npx supabase projects create "
                      ++ a.supabaseProjectName ++ " -i")]
              else [])
            ++ [Action.rmRecRel ".git"]),
          ?_, ?_, ?_, ?_⟩
  · have hp2 : "prisma" ∈ a.backendServices := by simpa using hp
    simp [initTrace, stepOrder, stepActions, postInstallActions, hp2]
  · simp
  · simp [hic, hclone, hinst]
  · by_cases hcs : "supabase" ∈ a.backendServices <;>
      cases hcp : a.isCreateSupabaseProject <;>
      simp [hcs, hcp, hsupa, hlogin, hlist, hcreate]

/-- C2 (code-bug evidence): the claim says the install command uses the
package manager's `add` verb when the dependency string is non-empty and
its bare `install` verb otherwise; `getInstallCommand` does the opposite —
with a non-empty string it returns the `install` form carrying the
dependencies, and with the empty string (under yarn/pnpm) it returns the
`add` form, while npm never gets an `add` command at all. -/
theorem getInstallCommand_verb_inverted :
    getInstallCommand "yarn" "prisma" = "yarn install prisma" ∧
    getInstallCommand "yarn" "" = "yarn add " ∧
    getInstallCommand "npm" "prisma" = "npm install prisma" := by
  decide

/-- C5 counterexample: a backend choice absent from the static table — in
particular the `none` choice — contributes the literal text `undefined`
(JS `String.prototype.concat` of an `undefined` lookup), not the empty
string, so the built specifier differs from the one the claim describes. -/
theorem dependency_string_undefined_counterexample :
    getBackendServicesDependencies ["none"] = "undefined" ∧
    allDependencies "none" ["none"] ≠ specDependencyString "none" ["none"] := by
  decide

/-- C5 (amended): for every CSS choice and every list of backend-service
choices each of which is present in the static table, the dependency
specifier is the space-join of the CSS entry (an unknown or `none` CSS
choice contributing the empty string) with the concatenation of the
backend entries; a backend choice missing from the table would instead
contribute the literal text `undefined`. -/
theorem dependency_string_table_choices (cssStyling : String)
    (backendServices : List String)
    (h : ∀ s ∈ backendServices, (packageDependencies s).isSome) :
    allDependencies cssStyling backendServices
      = specDependencyString cssStyling backendServices := by
  unfold allDependencies specDependencyString
  rw [getBackendServicesDependencies_table backendServices h]
  rfl

/-- Witness for the amended C5 theorem at a concrete input. -/
theorem dependency_string_table_choices_witness :
    (∀ s ∈ (["prisma", "supabase"] : List String), (packageDependencies s).isSome) ∧
    allDependencies "chakraui" ["prisma", "supabase"]
      = specDependencyString "chakraui" ["prisma", "supabase"] :=
  ⟨by decide, dependency_string_table_choices "chakraui" ["prisma", "supabase"] (by decide)⟩

/-- C6: with at least one positional argument, the exact value `.` puts
the run in current-directory mode — npm-name validation is skipped (the
result does not consult the validity oracle) and the path-collision check
passes even when the resolved path is on disk — while any other value is
validated through the oracle and, not being in current-directory mode, is
subject to the collision check. -/
theorem currentDir_sentinel_skips_checks (argv : List String)
    (validForNewPackages : String → Bool) (pathOnDisk : Bool)
    (hlen : 3 ≤ argv.length) :
    (argv.getD 2 "" = "." →
      validateAppName argv validForNewPackages = Except.ok (".", true) ∧
      validateProjectPath true pathOnDisk = none) ∧
    (argv.getD 2 "" ≠ "." →
      validateAppName argv validForNewPackages
        = (if validForNewPackages (argv.getD 2 "") then Except.ok (argv.getD 2 "", false)
           else Except.error 1) ∧
      validateProjectPath false pathOnDisk = (if pathOnDisk then some 1 else none)) := by
  have hnl : ¬ argv.length < 3 := by omega
  have hx : validateAppName argv validForNewPackages
      = (if argv.getD 2 "" = "." then Except.ok (argv.getD 2 "", true)
         else if validForNewPackages (argv.getD 2 "") then Except.ok (argv.getD 2 "", false)
         else Except.error 1) := by
    unfold validateAppName
    rw [if_neg hnl]
  constructor
  · intro hdot
    refine ⟨?_, rfl⟩
    rw [hx, if_pos hdot, hdot]
  · intro hne
    refine ⟨?_, ?_⟩
    · rw [hx, if_neg hne]
    · cases pathOnDisk <;> rfl

/-- Witness for the C6 theorem at a concrete input. -/
theorem currentDir_sentinel_skips_checks_witness :
    3 ≤ (["node", "create-af-app", "."] : List String).length ∧
    (((["node", "create-af-app", "."] : List String).getD 2 "" = "." →
      validateAppName ["node", "create-af-app", "."] (fun _ => false)
        = Except.ok (".", true) ∧
      validateProjectPath true true = none) ∧
    ((["node", "create-af-app", "."] : List String).getD 2 "" ≠ "." →
      validateAppName ["node", "create-af-app", "."] (fun _ => false)
        = (if (fun _ => false : String → Bool) ((["node", "create-af-app", "."] : List String).getD 2 "")
           then Except.ok ((["node", "create-af-app", "."] : List String).getD 2 "", false)
           else Except.error 1) ∧
      validateProjectPath false true = (if (true : Bool) then some 1 else none))) :=
  ⟨by decide, currentDir_sentinel_skips_checks ["node", "create-af-app", "."]
    (fun _ => false) true (by decide)⟩

/-- C7: the environment check reads the runtime version string and exits
with status 1 exactly when the numeric major component is below 14;
otherwise execution continues. -/
theorem nodeVersion_gate (version : String) (major : Nat)
    (h : jsStringToNum ((jsSplit version '.').headD "") = some major) :
    (validateNodeVersion version = some 1 ↔ major < 14) ∧
    (validateNodeVersion version = none ↔ 14 ≤ major) := by
  have hv : validateNodeVersion version
      = (if jsLtNat ((jsSplit version '.').headD "") 14 then some 1 else none) := rfl
  have hl : jsLtNat ((jsSplit version '.').headD "") 14 = decide (major < 14) := by
    unfold jsLtNat
    rw [h]
  rw [hv, hl]
  by_cases hm : major < 14 <;> simp [hm]
  omega

/-- Witness for the C7 theorem at concrete version strings. -/
theorem nodeVersion_gate_witness :
    jsStringToNum ((jsSplit "18.17.0" '.').headD "") = some 18 ∧
    ((validateNodeVersion "18.17.0" = some 1 ↔ 18 < 14) ∧
     (validateNodeVersion "18.17.0" = none ↔ 14 ≤ 18)) :=
  ⟨by decide, nodeVersion_gate "18.17.0" 18 (by decide)⟩

/-- C9: the dependency string handed to `getInstallCommand` is always the
space-join of the CSS and backend dependency strings, hence never empty,
so the `add` branch of `getInstallCommand` is unreachable from
`installDependencies` and the executed command always uses the `install`
verb. -/
theorem joined_dependencies_never_empty (packageManager cssStyling : String)
    (backendServices : List String) :
    allDependencies cssStyling backendServices ≠ "" ∧
    getInstallCommand packageManager (allDependencies cssStyling backendServices)
      = packageManager ++ " install " ++ allDependencies cssStyling backendServices :=
  ⟨allDependencies_ne_empty cssStyling backendServices,
   getInstallCommand_install _ _ (allDependencies_ne_empty cssStyling backendServices)⟩

/-- C1: once the clone step has completed (the tree was materialized at the
resolved path), a throw in any later step of the try block ends the trace
with the catch handler's error print and the recursive deletion of the
resolved path, and after running the whole trace the resolved path is no
longer on disk — no partial scaffold remains. -/
theorem rollback_after_commit (resolvedPath cwd0 : String) (a : Answers)
    (dirs0 : List String) (leftoverTree : Bool) (s : Step) (hs : s ≠ Step.clone) :
    (∃ pre, initTrace resolvedPath a (some s) leftoverTree
        = pre ++ [Action.printErr, Action.rmRec resolvedPath] ∧
      Action.mkTree resolvedPath ∈ pre) ∧
    fsPresent (applyTrace ⟨cwd0, dirs0⟩
        (initTrace resolvedPath a (some s) leftoverTree)).dirs resolvedPath = false := by
  refine ⟨⟨_, initTrace_fail_decomp resolvedPath a leftoverTree s,
    mkTree_mem_prefix resolvedPath a leftoverTree s hs⟩, ?_⟩
  rw [initTrace_fail_decomp]
  exact fsPresent_after_final_rmRec _ _ _

/-- Witness for the C1 theorem at a concrete input. -/
theorem rollback_after_commit_witness :
    Step.install ≠ Step.clone ∧
    ((∃ pre, initTrace "/home/u/my-app" sampleAnswers (some Step.install) false
        = pre ++ [Action.printErr, Action.rmRec "/home/u/my-app"] ∧
      Action.mkTree "/home/u/my-app" ∈ pre) ∧
    fsPresent (applyTrace ⟨"/home/u", ["/home/u"]⟩
        (initTrace "/home/u/my-app" sampleAnswers (some Step.install) false)).dirs
      "/home/u/my-app" = false) :=
  ⟨by decide,
   rollback_after_commit "/home/u/my-app" "/home/u" sampleAnswers ["/home/u"] false
     Step.install (by decide)⟩

/-- C4: when the clone step itself throws — whether or not it left a
partially transferred tree at the target — the catch handler runs and the
resolved path is not on disk after the run. -/
theorem clone_failure_rollback (inp : ProgInput) (a : Answers) (leftoverTree : Bool)
    (projectName : String) (isCurrentDir : Bool)
    (hv : validateNodeVersion inp.nodeVersion = none)
    (hn : validateAppName inp.argv inp.validName = Except.ok (projectName, isCurrentDir))
    (hp : validateProjectPath isCurrentDir
        (fsPresent inp.fs0 (pathJoin inp.cwd projectName)) = none) :
    (runProgram inp a (some Step.clone) leftoverTree).1 = RunOutcome.finished true ∧
    fsPresent (applyTrace ⟨inp.cwd, inp.fs0⟩
        (runProgram inp a (some Step.clone) leftoverTree).2).dirs
      (pathJoin inp.cwd projectName) = false := by
  have hrun : runProgram inp a (some Step.clone) leftoverTree
      = (RunOutcome.finished true,
         initTrace (pathJoin inp.cwd projectName) a (some Step.clone) leftoverTree) := by
    simp only [runProgram, hv, hn, hp, Option.isSome]
  rw [hrun]
  refine ⟨rfl, ?_⟩
  rw [initTrace_fail_decomp]
  exact fsPresent_after_final_rmRec _ _ _

/-- Witness for the C4 theorem at a concrete input. -/
theorem clone_failure_rollback_witness :
    validateNodeVersion sampleInput.nodeVersion = none ∧
    validateAppName sampleInput.argv sampleInput.validName
      = Except.ok ("my-app", false) ∧
    validateProjectPath false
      (fsPresent sampleInput.fs0 (pathJoin sampleInput.cwd "my-app")) = none ∧
    ((runProgram sampleInput sampleAnswers (some Step.clone) true).1
        = RunOutcome.finished true ∧
     fsPresent (applyTrace ⟨sampleInput.cwd, sampleInput.fs0⟩
        (runProgram sampleInput sampleAnswers (some Step.clone) true).2).dirs
      (pathJoin sampleInput.cwd "my-app") = false) :=
  ⟨by decide, rfl, by decide,
   clone_failure_rollback sampleInput sampleAnswers true "my-app" false
     (by decide) rfl (by decide)⟩

/-- C10: in current-directory mode the resolved path is
`path.join(cwd, ".")`, which is the current working directory itself, so a
throw in any step after the clone makes the catch handler recursively
delete the user's current working directory. -/
theorem currentDir_failure_deletes_cwd (inp : ProgInput) (a : Answers)
    (s : Step) (leftoverTree : Bool) (_hs : s ≠ Step.clone)
    (hv : validateNodeVersion inp.nodeVersion = none)
    (hlen : 3 ≤ inp.argv.length) (hdot : inp.argv.getD 2 "" = ".") :
    pathJoin inp.cwd "." = inp.cwd ∧
    (runProgram inp a (some s) leftoverTree).1 = RunOutcome.finished true ∧
    (∃ pre, (runProgram inp a (some s) leftoverTree).2
        = pre ++ [Action.printErr, Action.rmRec inp.cwd]) ∧
    fsPresent (applyTrace ⟨inp.cwd, inp.fs0⟩
        (runProgram inp a (some s) leftoverTree).2).dirs inp.cwd = false := by
  have hj : pathJoin inp.cwd "." = inp.cwd := by simp [pathJoin]
  have hpp : ∀ x, validateProjectPath true x = none := fun x => rfl
  have hrun : runProgram inp a (some s) leftoverTree
      = (RunOutcome.finished true, initTrace inp.cwd a (some s) leftoverTree) := by
    simp only [runProgram, hv, validateAppName_dot inp.argv inp.validName hlen hdot,
      hpp, Option.isSome, hj]
  rw [hrun]
  refine ⟨hj, rfl, ⟨_, initTrace_fail_decomp inp.cwd a leftoverTree s⟩, ?_⟩
  rw [initTrace_fail_decomp]
  exact fsPresent_after_final_rmRec _ _ _

/-- Witness for the C10 theorem at a concrete input. -/
theorem currentDir_failure_deletes_cwd_witness :
    Step.install ≠ Step.clone ∧
    validateNodeVersion sampleDotInput.nodeVersion = none ∧
    3 ≤ sampleDotInput.argv.length ∧
    sampleDotInput.argv.getD 2 "" = "." ∧
    (pathJoin sampleDotInput.cwd "." = sampleDotInput.cwd ∧
     (runProgram sampleDotInput sampleAnswers (some Step.install) false).1
        = RunOutcome.finished true ∧
     (∃ pre, (runProgram sampleDotInput sampleAnswers (some Step.install) false).2
        = pre ++ [Action.printErr, Action.rmRec sampleDotInput.cwd]) ∧
     fsPresent (applyTrace ⟨sampleDotInput.cwd, sampleDotInput.fs0⟩
        (runProgram sampleDotInput sampleAnswers (some Step.install) false).2).dirs
      sampleDotInput.cwd = false) :=
  ⟨by decide, by decide, by decide, by decide,
   currentDir_failure_deletes_cwd sampleDotInput sampleAnswers Step.install false
     (by decide) (by decide) (by decide) (by decide)⟩

/-- C8: when `prisma` is among the selected backend services, a successful
run executes `<packageManager> run init:prisma` exactly once, and only
after the dependency install command: the trace splits into a prefix
containing the install command, then the single prisma generator
invocation, which occurs nowhere else in the trace. -/
theorem prisma_generator_once_after_install (resolvedPath : String) (a : Answers)
    (leftoverTree : Bool)
    (hpm : a.packageManager = "pnpm" ∨ a.packageManager = "npm"
        ∨ a.packageManager = "yarn")
    (hp : a.backendServices.contains "prisma" = true) :
    (initTrace resolvedPath a none leftoverTree).count
        (Action.exec (a.packageManager ++ " run init:prisma")) = 1 ∧
    ∃ l₁ l₂,
      initTrace resolvedPath a none leftoverTree
        = l₁ ++ Action.exec (a.packageManager ++ " run init:prisma") :: l₂ ∧
      Action.exec (getInstallCommand a.packageManager
          (allDependencies a.cssStyling a.backendServices)) ∈ l₁ ∧
      Action.exec (a.packageManager ++ " run init:prisma") ∉ l₁ ∧
      Action.exec (a.packageManager ++ " run init:prisma") ∉ l₂ := by
  obtain ⟨hclone, hinst, hsupa, hlogin, hlist, hcreate⟩ :
      (a.packageManager ++ " run init:prisma"
          ≠ "git clone --depth 1 " ++ GITHUB_REPO ++ " " ++ resolvedPath) ∧
      (a.packageManager ++ " run init:prisma"
          ≠ a.packageManager ++ " install "
            ++ allDependencies a.cssStyling a.backendServices) ∧
      (a.packageManager ++ " run init:prisma"
          ≠ a.packageManager ++ " run init:supabase") ∧
      (a.packageManager ++ " run init:prisma" ≠ "npx supabase login") ∧
      (a.packageManager ++ " run init:prisma" ≠ "npx supabase projects list") ∧
      (a.packageManager ++ " run init:prisma"
          ≠ "npx supabase projects create " ++ a.supabaseProjectName ++ " -i") := by
    rcases hpm with h | h | h <;> rw [h] <;>
      exact ⟨(append_ne_of_length_lt _ _ _ (by decide)).symm,
             (string_ne_of_take_ne _ _ _ (by decide)).symm,
             by decide, by decide, by decide,
             (append3_ne_of_length _ _ _ _ (by decide)).symm⟩
  obtain ⟨l₁, l₂, heq, hmem, hn1, hn2⟩ :=
    prisma_trace_shape resolvedPath a leftoverTree hp hclone hinst hsupa hlogin
      hlist hcreate
  refine ⟨?_, l₁, l₂, heq, hmem, hn1, hn2⟩
  rw [heq, List.count_append, List.count_cons_self,
      List.count_eq_zero.mpr hn1, List.count_eq_zero.mpr hn2]

/-- Witness for the C8 theorem at a concrete input. -/
theorem prisma_generator_once_after_install_witness :
    (sampleAnswers.packageManager = "pnpm" ∨ sampleAnswers.packageManager = "npm"
        ∨ sampleAnswers.packageManager = "yarn") ∧
    sampleAnswers.backendServices.contains "prisma" = true ∧
    ((initTrace "/home/u/my-app" sampleAnswers none false).count
        (Action.exec (sampleAnswers.packageManager ++ " run init:prisma")) = 1 ∧
     ∃ l₁ l₂,
       initTrace "/home/u/my-app" sampleAnswers none false
         = l₁ ++ Action.exec (sampleAnswers.packageManager ++ " run init:prisma") :: l₂ ∧
       Action.exec (getInstallCommand sampleAnswers.packageManager
           (allDependencies sampleAnswers.cssStyling sampleAnswers.backendServices)) ∈ l₁ ∧
       Action.exec (sampleAnswers.packageManager ++ " run init:prisma") ∉ l₁ ∧
       Action.exec (sampleAnswers.packageManager ++ " run init:prisma") ∉ l₂) :=
  ⟨Or.inl rfl, rfl,
   prisma_generator_once_after_install "/home/u/my-app" sampleAnswers false
     (Or.inl rfl) rfl⟩

/-- C3 (code-bug evidence): validation failures do call `process.exit(1)`,
but an exception caught by the top-level handler does not — the catch
handler prints and deletes and then lets `init`'s promise resolve, so the
process exits 0 on a failed scaffold, where the claim requires exit code
1. -/
theorem caught_error_exit_code_zero :
    validateNodeVersion "12.22.0" = some 1 ∧
    validateAppName ["node", "create-af-app"] (fun _ => true) = Except.error 1 ∧
    (runProgram sampleInput sampleAnswers (some Step.install) false).1
      = RunOutcome.finished true ∧
    processExitCode (runProgram sampleInput sampleAnswers (some Step.install) false).1
      = 0 := by
  exact ⟨by decide, rfl, by decide, by decide⟩

end CreateAFLabApp
